import Mathlib

/-!
Verification of the web-testing engine (test orchestration and element discovery).

The definitions below are a shallow embedding of the TypeScript sources:

* `src/src/interfaces/types.ts` — the data model (statuses, selectors, steps,
  assertions, test cases, suites and run records);
* `src/src/services/runTScrawler.ts` — the minimal test-runner variant
  (`canRunTest`, `runTestCase`, `executeAssertion`, `buildSelector`,
  `updateSuiteRunStats`, `determineTestSuiteStatus`, `recordBlockedTest`);
* the full test-runner variant shipped with the repository (the service
  code carried alongside `src/src/routes/crawler.ts`), which adds
  `getValueFromTestData`, the `select` action, value checks for `type` and
  `select`, and the complete `buildSelector` mapping;
* `src/src/services/crawler.ts` — the discovery engine
  (`validateAttributes`, `extractAttributes`, `generateUniqueSelector`,
  `retryOperation`).

Interaction with the browser driver is modelled by oracles: a `Driver` over
an abstract world type answers each driver call with success or an error
message and a new world.  Control flow, logging, statistics and the strings
the code builds are translated literally from the source; wall-clock
timestamps and log-file persistence are not modelled.
-/

namespace WebTest

/-- Execution status of a test case or suite (interfaces/types.ts, TestStatus). -/
inductive TestStatus where
  | NOT_RUN
  | RUNNING
  | PASSED
  | FAILED
  | BLOCKED
  | SKIPPED
  deriving DecidableEq, Repr

/-- Selector type tags (interfaces/types.ts, SelectorType).  The `other`
constructor stands for any runtime string outside the declared union, which the
source handles through the `default` branch of its switch. -/
inductive SelectorType where
  | id
  | name
  | css
  | xpath
  | tagName
  | className
  | linkText
  | other (raw : String)
  deriving DecidableEq, Repr

/-- A selector descriptor (interfaces/types.ts, Selector): a type tag and a value. -/
structure Selector where
  type : SelectorType
  value : String
  deriving DecidableEq, Repr

/-- Step actions (interfaces/types.ts, Action). -/
inductive Action where
  | navigate
  | click
  | type
  | select
  | check
  | uncheck
  | clear
  | submit
  | hover
  | wait
  | screenshot
  | assert
  deriving DecidableEq, Repr

/-- The string the source interpolates for an action in error messages. -/
def Action.toStr : Action → String
  | .navigate => "navigate"
  | .click => "click"
  | .type => "type"
  | .select => "select"
  | .check => "check"
  | .uncheck => "uncheck"
  | .clear => "clear"
  | .submit => "submit"
  | .hover => "hover"
  | .wait => "wait"
  | .screenshot => "screenshot"
  | .assert => "assert"

/-- Assertion kinds (interfaces/types.ts, AssertionType). -/
inductive AssertionType where
  | elementExists
  | elementVisible
  | elementEnabled
  | textEquals
  | textContains
  | attributeEquals
  | attributeContains
  | urlEquals
  | urlContains
  | pageTitle
  deriving DecidableEq, Repr

/-- Per-step fixture data (interfaces/types.ts, Step.testData): optional maps of
named valid and invalid values, modelled as association lists. -/
structure TestDataFixture where
  valid : Option (List (String × String))
  invalid : Option (List (String × String))
  deriving DecidableEq, Repr

/-- A test step (interfaces/types.ts, Step).  `selector` and `value` are
optional at runtime (the full executor guards both), `timeout` and
`waitForNavigation` drive the wait action and post-action navigation wait. -/
structure Step where
  id : String
  action : Action
  selector : Option Selector
  value : Option String
  timeout : Option Nat
  waitForNavigation : Bool
  testData : Option TestDataFixture
  useValidData : Bool
  deriving DecidableEq, Repr

/-- An assertion (interfaces/types.ts, Assertion). -/
structure Assertion where
  id : String
  assertionType : AssertionType
  selector : Option Selector
  expectedValue : Option String
  deriving DecidableEq, Repr

/-- A test case (interfaces/types.ts, TestCase), restricted to the fields the
runner reads: id, ordered steps, assertions and the dependency list. -/
structure TestCase where
  id : String
  steps : List Step
  assertions : List Assertion
  dependsOn : List String
  deriving DecidableEq, Repr

/-- A test suite (interfaces/types.ts, TestSuite): id and ordered test cases. -/
structure TestSuite where
  id : String
  testCases : List TestCase
  deriving DecidableEq, Repr

/-- Selector Resolver of the full runner variant (buildSelector in the service
code carried with src/src/routes/crawler.ts): a null selector yields the empty
string, each declared type tag maps to its driver query shape, and the default
branch returns the raw value. -/
def buildSelector : Option Selector → String
  | none => ""
  | some sel =>
    match sel.type with
    | .id => "#" ++ sel.value
    | .name => "[name=\"" ++ sel.value ++ "\"]"
    | .css => sel.value
    | .xpath => "xpath=" ++ sel.value
    | .linkText => "text=" ++ sel.value
    | .className => "." ++ sel.value
    | .tagName => sel.value
    | .other _ => sel.value

/-- buildSelector of the minimal runner variant
(src/src/services/runTScrawler.ts, lines 242-253): only id, css and xpath have
dedicated cases; everything else falls to the default branch. -/
def buildSelectorMinimal (sel : Selector) : String :=
  match sel.type with
  | .id => "#" ++ sel.value
  | .css => sel.value
  | .xpath => "xpath=" ++ sel.value
  | _ => sel.value

/-- JavaScript truthiness of a nullable string: null, undefined and the empty
string are falsy, every other string is truthy. -/
def truthyStr : Option String → Bool
  | none => false
  | some s => s ≠ ""

/-- Lookup in an association list modelling a JavaScript object keyed by
attribute or fixture name. -/
def lookupEntry (m : List (String × String)) (k : String) : Option String :=
  match m.find? (fun kv => kv.1 == k) with
  | some kv => some kv.2
  | none => none

/-- getValueFromTestData of the full runner variant: fixture lookup keyed by
step.value into valid or invalid data depending on useValidData; a missing map,
missing key or falsy entry yields null.  A missing step.value indexes the
object with the string coercion of undefined. -/
def getValueFromTestData (step : Step) : Option String :=
  match step.testData with
  | none => none
  | some td =>
    let key := step.value.getD "undefined"
    if step.useValidData then
      match td.valid with
      | some m => if truthyStr (lookupEntry m key) then lookupEntry m key else none
      | none => none
    else
      match td.invalid with
      | some m => if truthyStr (lookupEntry m key) then lookupEntry m key else none
      | none => none

/-- The value a step resolves to in the full executor:
`step.value || this.getValueFromTestData(step)` — the literal value when
truthy, otherwise the fixture lookup. -/
def stepResolvedValue (step : Step) : Option String :=
  if truthyStr step.value then step.value else getValueFromTestData step

/-- One call into the browser-driver capability, as issued by the runner. -/
inductive DriverCall where
  | openPage
  | closePage
  | goto (url : String)
  | click (sel : String)
  | fill (sel : String) (v : String)
  | selectOption (sel : String) (v : String)
  | waitForTimeout (ms : Nat)
  | waitForLoadState
  | waitForSelector (sel : String) (state : String)
  | textContent (sel : String)
  | screenshot
  deriving DecidableEq, Repr

/-- Oracle for the browser driver over an abstract world `W`: `act` answers an
action call with success or an error message, `text` answers a textContent
query with a nullable string or an error, `url` reads the current page URL. -/
structure Driver (W : Type) where
  act : W → DriverCall → Except String Unit × W
  text : W → String → Except String (Option String) × W
  url : W → String

/-- Outcome of one executor invocation: the result, the driver calls actually
issued, and the driver world afterwards. -/
structure ExecOutcome (W : Type) where
  res : Except String Unit
  calls : List DriverCall
  world : W
  deriving Repr

/-- A step executor over world `W`. -/
def StepExec (W : Type) : Type := W → Step → ExecOutcome W

/-- An assertion evaluator over world `W`. -/
def AssertExec (W : Type) : Type := W → Assertion → ExecOutcome W

/-- Step Executor of the full runner variant (executeStep in the service code
carried with src/src/routes/crawler.ts): resolve the selector and the value,
dispatch on the action — type and select demand a truthy resolved value before
touching the driver, navigate falls back to the current URL, wait defaults a
falsy timeout to 5000 — and, after a successful action, wait for a quiescent
network state when waitForNavigation is set. -/
def executeStep {W : Type} (d : Driver W) (w : W) (step : Step) : ExecOutcome W :=
  let selector := match step.selector with
    | some s => buildSelector (some s)
    | none => ""
  let value := stepResolvedValue step
  let afterNav : Except String Unit → List DriverCall → W → ExecOutcome W :=
    fun res calls w2 =>
      match res with
      | Except.error e => ⟨Except.error e, calls, w2⟩
      | Except.ok _ =>
        if step.waitForNavigation then
          let r2 := d.act w2 DriverCall.waitForLoadState
          ⟨r2.1, calls ++ [DriverCall.waitForLoadState], r2.2⟩
        else ⟨Except.ok (), calls, w2⟩
  match step.action with
  | .navigate =>
    let url := match value with
      | some v => if v = "" then d.url w else v
      | none => d.url w
    let r := d.act w (DriverCall.goto url)
    afterNav r.1 [DriverCall.goto url] r.2
  | .click =>
    let r := d.act w (DriverCall.click selector)
    afterNav r.1 [DriverCall.click selector] r.2
  | .type =>
    match value with
    | some v =>
      if v = "" then
        ⟨Except.error ("No value provided for type action in step " ++ step.id), [], w⟩
      else
        let r := d.act w (DriverCall.fill selector v)
        afterNav r.1 [DriverCall.fill selector v] r.2
    | none => ⟨Except.error ("No value provided for type action in step " ++ step.id), [], w⟩
  | .select =>
    match value with
    | some v =>
      if v = "" then
        ⟨Except.error ("No value provided for select action in step " ++ step.id), [], w⟩
      else
        let r := d.act w (DriverCall.selectOption selector v)
        afterNav r.1 [DriverCall.selectOption selector v] r.2
    | none => ⟨Except.error ("No value provided for select action in step " ++ step.id), [], w⟩
  | .wait =>
    let ms := match step.timeout with
      | some t => if t = 0 then 5000 else t
      | none => 5000
    let r := d.act w (DriverCall.waitForTimeout ms)
    afterNav r.1 [DriverCall.waitForTimeout ms] r.2
  | a => ⟨Except.error ("Unsupported action: " ++ a.toStr), [], w⟩

/-- JavaScript strict inequality between the nullable text content of an
element and the possibly-undefined expected value: two present strings compare
by value, and any comparison involving null or undefined is unequal (null and
undefined are distinct values under strict equality). -/
def jsStrictNe : Option String → Option String → Bool
  | some c, some e => c != e
  | _, _ => true

/-- Template-literal rendering of the expected value (undefined prints as
"undefined"). -/
def showExpected : Option String → String
  | some s => s
  | none => "undefined"

/-- Template-literal rendering of the found text content (null prints as
"null"). -/
def showFound : Option String → String
  | some s => s
  | none => "null"

/-- Assertion Evaluator of the minimal runner variant
(src/src/services/runTScrawler.ts, lines 221-240): the whole dispatch sits
inside an `if (assertion.selector)` guard, and the switch covers only
elementExists, elementVisible and textEquals — any other assertion type, or an
absent selector, falls through and resolves successfully. -/
def executeAssertionMinimal {W : Type} (d : Driver W) (w : W) (a : Assertion) : ExecOutcome W :=
  match a.selector with
  | none => ⟨Except.ok (), [], w⟩
  | some s =>
    let selector := buildSelectorMinimal s
    match a.assertionType with
    | .elementExists =>
      let r := d.act w (DriverCall.waitForSelector selector "default")
      ⟨r.1, [DriverCall.waitForSelector selector "default"], r.2⟩
    | .elementVisible =>
      let r := d.act w (DriverCall.waitForSelector selector "visible")
      ⟨r.1, [DriverCall.waitForSelector selector "visible"], r.2⟩
    | .textEquals =>
      let r := d.text w selector
      match r.1 with
      | Except.error e => ⟨Except.error e, [DriverCall.textContent selector], r.2⟩
      | Except.ok content =>
        if jsStrictNe content a.expectedValue then
          ⟨Except.error ("Text mismatch. Expected: " ++ showExpected a.expectedValue
              ++ ", Found: " ++ showFound content),
           [DriverCall.textContent selector], r.2⟩
        else ⟨Except.ok (), [DriverCall.textContent selector], r.2⟩
    | _ => ⟨Except.ok (), [], w⟩

/-- One entry of TestRun.logs.steps. -/
structure StepLog where
  stepId : String
  success : Bool
  error : Option String
  deriving DecidableEq, Repr

/-- One entry of TestRun.logs.assertions. -/
structure AssertLog where
  assertionId : String
  success : Bool
  error : Option String
  deriving DecidableEq, Repr

/-- Result of the step loop of runTestCase: the step log entries, the driver
calls issued, the error that aborted the loop (if any), and the final world. -/
structure StepsOutcome (W : Type) where
  logs : List StepLog
  calls : List DriverCall
  err : Option String
  world : W
  deriving Repr

/-- Result of the assertion loop of runTestCase: log entries, driver calls,
the assertionsFailed flag, and the final world. -/
structure AssertsOutcome (W : Type) where
  logs : List AssertLog
  calls : List DriverCall
  anyFailed : Bool
  world : W
  deriving Repr

/-- The step loop of runTestCase (both runner variants): execute each step in
list order; a success appends a success log entry, a failure captures a
screenshot, appends a failure entry carrying the error message, and aborts the
loop rethrowing the error. -/
def runStepsAux {W : Type} (execS : StepExec W) (w : W) : List Step → StepsOutcome W
  | [] => ⟨[], [], none, w⟩
  | s :: rest =>
    let r := execS w s
    match r.res with
    | Except.ok _ =>
      let o := runStepsAux execS r.world rest
      ⟨⟨s.id, true, none⟩ :: o.logs, r.calls ++ o.calls, o.err, o.world⟩
    | Except.error e =>
      ⟨[⟨s.id, false, some e⟩], r.calls ++ [DriverCall.screenshot], some e, r.world⟩

/-- The assertion loop of runTestCase (both runner variants): every assertion
is evaluated; a failure sets the assertionsFailed flag and records a failure
entry, but never aborts the loop. -/
def runAssertionsAux {W : Type} (execA : AssertExec W) (w : W) : List Assertion → AssertsOutcome W
  | [] => ⟨[], [], false, w⟩
  | a :: rest =>
    let r := execA w a
    let o := runAssertionsAux execA r.world rest
    match r.res with
    | Except.ok _ => ⟨⟨a.id, true, none⟩ :: o.logs, r.calls ++ o.calls, o.anyFailed, o.world⟩
    | Except.error e => ⟨⟨a.id, false, some e⟩ :: o.logs, r.calls ++ o.calls, true, o.world⟩

/-- The observable fields of a TestRun record as the case runner leaves them. -/
structure CaseRun where
  testCaseId : String
  status : TestStatus
  errorMessage : Option String
  screenshot : Bool
  stepLogs : List StepLog
  assertLogs : List AssertLog
  message : Option String
  deriving DecidableEq, Repr

/-- Result of running one test case: the TestRun record, the driver calls
issued (page open, step and assertion traffic, page close), and the world. -/
structure CaseOutcome (W : Type) where
  run : CaseRun
  calls : List DriverCall
  world : W
  deriving Repr

/-- Test Case Runner (runTestCase of src/src/services/runTScrawler.ts, lines
114-198; the full variant shares this control flow): open a page, run the
steps short-circuiting on the first failure — in which case the case is FAILED
with the error recorded and a screenshot captured, and no assertion runs —
otherwise run every assertion and mark the case FAILED exactly when some
assertion failed, closing the page on the way out. -/
def runTestCase {W : Type} (execS : StepExec W) (execA : AssertExec W) (w : W)
    (tc : TestCase) : CaseOutcome W :=
  let so := runStepsAux execS w tc.steps
  match so.err with
  | some e =>
    ⟨⟨tc.id, TestStatus.FAILED, some e, true, so.logs, [], none⟩,
     DriverCall.openPage :: so.calls, so.world⟩
  | none =>
    let ao := runAssertionsAux execA so.world tc.assertions
    ⟨⟨tc.id, if ao.anyFailed then TestStatus.FAILED else TestStatus.PASSED,
       none, false, so.logs, ao.logs, none⟩,
     DriverCall.openPage :: (so.calls ++ ao.calls ++ [DriverCall.closePage]), ao.world⟩

/-- The run registry (this.testRuns): test-case id to the status of its most
recently recorded run; insertion prepends, lookup takes the first hit. -/
def Registry : Type := List (String × TestStatus)

/-- Lookup of a recorded run status by test-case id. -/
def lookupRun (reg : Registry) (id : String) : Option TestStatus :=
  match List.find? (fun kv => kv.1 == id) reg with
  | some kv => some kv.2
  | none => none

/-- Dependency Gate (canRunTest of src/src/services/runTScrawler.ts, lines
102-112): a case with no dependencies is immediately eligible; otherwise every
dependency id must map to a recorded run with status PASSED. -/
def canRunTest (reg : Registry) (deps : List String) : Bool :=
  if deps.length = 0 then true
  else deps.all fun dep =>
    match lookupRun reg dep with
    | some TestStatus.PASSED => true
    | _ => false

/-- recordBlockedTest (src/src/services/runTScrawler.ts, lines 300-320): the
TestRun recorded for an ineligible case — status BLOCKED, empty step and
assertion logs, and the fixed diagnostic message. -/
def blockedTestRun (tc : TestCase) : CaseRun :=
  ⟨tc.id, TestStatus.BLOCKED, none, false, [], [],
   some "Test blocked due to failed dependencies"⟩

/-- The mutable per-suite aggregate (this.currentSuiteRun counters plus the
shared run registry). -/
structure SuiteRunState where
  totalTests : Nat
  passedTests : Nat
  failedTests : Nat
  skippedTests : Nat
  blockedTests : Nat
  registry : Registry
  testRuns : List CaseRun

/-- updateSuiteRunStats (src/src/services/runTScrawler.ts, lines 259-276):
bump the counter matching the terminal status; other statuses fall through the
switch unchanged. -/
def updateSuiteRunStats (st : SuiteRunState) : TestStatus → SuiteRunState
  | TestStatus.PASSED => { st with passedTests := st.passedTests + 1 }
  | TestStatus.FAILED => { st with failedTests := st.failedTests + 1 }
  | TestStatus.SKIPPED => { st with skippedTests := st.skippedTests + 1 }
  | TestStatus.BLOCKED => { st with blockedTests := st.blockedTests + 1 }
  | _ => st

/-- Result of processing test cases at suite level. -/
structure SuiteStepOutcome (W : Type) where
  state : SuiteRunState
  calls : List DriverCall
  world : W

/-- One iteration of the suite loop (runTestSuite body, lines 74-80): an
eligible case is run and its record registered and counted; an ineligible case
is recorded BLOCKED without touching the driver. -/
def processCase {W : Type} (execS : StepExec W) (execA : AssertExec W) (w : W)
    (st : SuiteRunState) (tc : TestCase) : SuiteStepOutcome W :=
  if canRunTest st.registry tc.dependsOn then
    let co := runTestCase execS execA w tc
    ⟨{ updateSuiteRunStats st co.run.status with
        registry := (tc.id, co.run.status) :: st.registry,
        testRuns := st.testRuns ++ [co.run] }, co.calls, co.world⟩
  else
    ⟨{ updateSuiteRunStats st TestStatus.BLOCKED with
        registry := (tc.id, TestStatus.BLOCKED) :: st.registry,
        testRuns := st.testRuns ++ [blockedTestRun tc] }, [], w⟩

/-- The suite loop over a list of test cases, threading state and world. -/
def runSuiteCases {W : Type} (execS : StepExec W) (execA : AssertExec W) :
    W → SuiteRunState → List TestCase → SuiteStepOutcome W
  | w, st, [] => ⟨st, [], w⟩
  | w, st, tc :: rest =>
    let o := processCase execS execA w st tc
    let o2 := runSuiteCases execS execA o.world o.state rest
    ⟨o2.state, o.calls ++ o2.calls, o2.world⟩

/-- determineTestSuiteStatus (src/src/services/runTScrawler.ts, lines
278-285), as a function of the suite counters. -/
def determineTestSuiteStatus (failedTests passedTests blockedTests totalTests : Nat) :
    TestStatus :=
  if failedTests > 0 then TestStatus.FAILED
  else if passedTests = totalTests then TestStatus.PASSED
  else if blockedTests > 0 then TestStatus.BLOCKED
  else TestStatus.FAILED

/-- The observable fields of a completed TestSuiteRun. -/
structure TestSuiteRunModel where
  testSuiteId : String
  status : TestStatus
  totalTests : Nat
  passedTests : Nat
  failedTests : Nat
  skippedTests : Nat
  blockedTests : Nat
  testRuns : List CaseRun

/-- Result of running a whole suite. -/
structure SuiteOutcome (W : Type) where
  run : TestSuiteRunModel
  calls : List DriverCall
  world : W

/-- The fresh suite-run record created at the top of runTestSuite: totalTests
is the number of test cases, all counters zero; the registry is the instance
registry carried over from earlier suites. -/
def initSuiteState (reg0 : Registry) (suite : TestSuite) : SuiteRunState :=
  ⟨suite.testCases.length, 0, 0, 0, 0, reg0, []⟩

/-- Suite Run Coordinator (runTestSuite of src/src/services/runTScrawler.ts,
lines 50-100): initialise the aggregate, gate and run each case in suite
order, then derive the final suite status from the counters. -/
def runTestSuite {W : Type} (execS : StepExec W) (execA : AssertExec W) (w : W)
    (reg0 : Registry) (suite : TestSuite) : SuiteOutcome W :=
  let o := runSuiteCases execS execA w (initSuiteState reg0 suite) suite.testCases
  ⟨⟨suite.id,
    determineTestSuiteStatus o.state.failedTests o.state.passedTests
      o.state.blockedTests o.state.totalTests,
    o.state.totalTests, o.state.passedTests, o.state.failedTests,
    o.state.skippedTests, o.state.blockedTests, o.state.testRuns⟩,
   o.calls, o.world⟩

/-- Retry limit (src/src/services/crawler.ts, line 45). -/
def MAX_RETRY_ATTEMPTS : Nat := 3

/-- Base retry delay in milliseconds (src/src/services/crawler.ts, line 46). -/
def RECOVERY_DELAY : Nat := 1000

/-- Result of the retry controller: the final operation result, the number of
attempts actually executed, and the delays slept between attempts in order. -/
structure RetryOutcome (α : Type) where
  res : Except String α
  attempts : Nat
  delays : List Nat
  deriving Repr

/-- Recursive core of retryOperation (src/src/services/crawler.ts, lines
401-420).  The operation oracle is indexed by the attempt number (0-based,
equal to the source's retryCount at that call).  The structural fuel is the
number of retries still allowed, MAX_RETRY_ATTEMPTS minus the current
retryCount: when it reaches zero the next failure is rethrown; otherwise the
code sleeps RECOVERY_DELAY * (retryCount + 1) and recurses with retryCount
incremented. -/
def retryAux {α : Type} (op : Nat → Except String α) (attempt : Nat) :
    Nat → RetryOutcome α
  | 0 =>
    match op attempt with
    | Except.ok a => ⟨Except.ok a, 1, []⟩
    | Except.error e => ⟨Except.error e, 1, []⟩
  | r + 1 =>
    match op attempt with
    | Except.ok a => ⟨Except.ok a, 1, []⟩
    | Except.error _ =>
      let o := retryAux op (attempt + 1) r
      ⟨o.res, o.attempts + 1, (RECOVERY_DELAY * (attempt + 1)) :: o.delays⟩

/-- retryOperation as called with the default retryCount of 0. -/
def retryOperation {α : Type} (op : Nat → Except String α) : RetryOutcome α :=
  retryAux op 0 MAX_RETRY_ATTEMPTS

/-- validateAttributes (src/src/services/crawler.ts, lines 276-284): rebuild
the attribute map keeping only entries whose value length is strictly below
1000.  All modelled attribute values are strings, so the typeof guard always
holds. -/
def validateAttributes : List (String × String) → List (String × String)
  | [] => []
  | (k, v) :: rest =>
    if v.length < 1000 then (k, v) :: validateAttributes rest
    else validateAttributes rest

/-- extractAttributes (src/src/services/crawler.ts, lines 286-295): collect
the element attributes in document order, then filter them through
validateAttributes.  The in-page collection itself is modelled as the given
association list. -/
def extractAttributes (attrs : List (String × String)) : List (String × String) :=
  validateAttributes attrs

/-- JavaScript tagName.toLowerCase(), modelled characterwise so that it
evaluates by kernel reduction. -/
def strToLower (s : String) : String := String.mk (s.data.map Char.toLower)

/-- A DOM element for the unique-selector generator: raw tag name (as
tagName reports it), id attribute, name attribute, class string, and child
elements in document order.  Absent attributes are the empty string, which is
exactly what the source's truthiness checks treat as absent. -/
inductive Dom where
  | node (tag : String) (idAttr : String) (nameAttr : String) (className : String)
      (children : List Dom)

/-- The raw tag name of an element. -/
def Dom.tag : Dom → String
  | .node t _ _ _ _ => t

/-- The id attribute of an element (empty when absent). -/
def Dom.idAttr : Dom → String
  | .node _ i _ _ _ => i

/-- The name attribute of an element (empty when absent). -/
def Dom.nameAttr : Dom → String
  | .node _ _ n _ _ => n

/-- The class string of an element (empty when absent). -/
def Dom.className : Dom → String
  | .node _ _ _ c _ => c

/-- The child elements of an element. -/
def Dom.children : Dom → List Dom
  | .node _ _ _ _ cs => cs

/-- Resolve a position (a list of child indices below the body root) to the
element it denotes. -/
def Dom.resolve (d : Dom) : List Nat → Option Dom
  | [] => some d
  | i :: rest =>
    match d.children.get? i with
    | some c => c.resolve rest
    | none => none

/-- The 1-based nth-of-type index of child i: one more than the number of
preceding siblings with the same raw tag name, matching the
previousElementSibling counting loop in generateUniqueSelector. -/
def nthOfTypeIdx (siblings : List Dom) (i : Nat) : Nat :=
  match siblings.get? i with
  | none => 1
  | some c => ((siblings.take i).filter (fun s => s.tag == c.tag)).length + 1

/-- The positional-path segments from the body root down to the element at the
given position, each of the form tag:nth-of-type(index) with the tag
lowercased. -/
def pathSegsAux : Dom → List Nat → List String
  | _, [] => []
  | d, i :: rest =>
    match d.children.get? i with
    | none => []
    | some c =>
      (strToLower c.tag ++ ":nth-of-type(" ++ toString (nthOfTypeIdx d.children i) ++ ")")
        :: pathSegsAux c rest

/-- One iteration of the selector-path while loop: the freshly computed
segment is prepended to the path built so far, inserting the separator only
when the accumulated path is non-empty. -/
def joinSeg (seg path : String) : String :=
  seg ++ (if path = "" then "" else " > " ++ path)

/-- The path string exactly as the while loop of generateUniqueSelector builds
it: the loop walks from the element up to body prepending one segment per
level, which is the right fold of joinSeg over the top-down segment list. -/
def positionalPath (root : Dom) (pos : List Nat) : String :=
  (pathSegsAux root pos).foldr joinSeg ""

/-- JavaScript String.trim(), modelled characterwise so that it evaluates by
kernel reduction: leading and trailing whitespace characters are removed. -/
def strTrim (s : String) : String :=
  String.mk (((s.data.dropWhile Char.isWhitespace).reverse.dropWhile
    Char.isWhitespace).reverse)

/-- The pieces of a character list cut at every whitespace character, each
piece possibly empty, in order. -/
def splitPieces : List Char → List Char → List String
  | [], acc => [String.mk acc.reverse]
  | c :: rest, acc =>
    if Char.isWhitespace c then String.mk acc.reverse :: splitPieces rest []
    else splitPieces rest (c :: acc)

/-- JavaScript split on whitespace runs as applied to a trimmed class string:
the empty string splits to a single empty piece, any other trimmed string
splits to its whitespace-separated words (runs of whitespace produce no empty
words, matching the regex split). -/
def splitClassList (s : String) : List String :=
  if s = "" then [""] else (splitPieces s.data []).filter (fun c => c ≠ "")

/-- The in-page evaluation body of generateUniqueSelector
(src/src/services/crawler.ts, lines 299-332) for the element `el` sitting at
`pos` under the body root: id rule, then tag+name, then tag+class list, then
the positional path, with an element directly at body degrading to the bare
lowercase tag. -/
def uniqueSelectorEval (root : Dom) (pos : List Nat) (el : Dom) : String :=
  if el.idAttr ≠ "" then "#" ++ el.idAttr
  else
    let tag := strToLower el.tag
    if el.nameAttr ≠ "" then tag ++ "[name=\"" ++ el.nameAttr ++ "\"]"
    else if el.className ≠ "" then
      let classes := splitClassList (strTrim el.className)
      if classes.length > 0 then tag ++ "." ++ String.intercalate "." classes
      else
        let path := positionalPath root pos
        if path = "" then tag else "body > " ++ path
    else
      let path := positionalPath root pos
      if path = "" then tag else "body > " ++ path

/-- generateUniqueSelector (src/src/services/crawler.ts, lines 297-338).  The
main in-page evaluation can fail (first flag); the catch block then issues a
second evaluation returning the bare lowercase tag name, which can itself fail
(second flag) — in that case the rejection propagates to the caller. -/
def generateUniqueSelector (root : Dom) (pos : List Nat)
    (evalFails fallbackFails : Bool) : Except String String :=
  match root.resolve pos with
  | none => Except.error "element not found"
  | some el =>
    if evalFails then
      if fallbackFails then Except.error "Execution context was destroyed"
      else Except.ok (strToLower el.tag)
    else Except.ok (uniqueSelectorEval root pos el)

/-- Plain join of a list of strings with a separator, the specification-side
reading of "segments joined by the separator". -/
def joinWithSep (sep : String) : List String → String
  | [] => ""
  | [x] => x
  | x :: y :: rest => x ++ sep ++ joinWithSep sep (y :: rest)

/-- A step executor over the trivial world that always succeeds without driver
traffic, used to instantiate generic theorems at concrete inputs. -/
def noopStepExec : StepExec Unit := fun _ _ => ⟨Except.ok (), [], ()⟩

/-- An assertion evaluator over the trivial world that always succeeds. -/
def noopAssertExec : AssertExec Unit := fun _ _ => ⟨Except.ok (), [], ()⟩

/-- A driver over the trivial world whose calls all succeed, whose textContent
is always null and whose current URL is fixed. -/
def noopDriver : Driver Unit where
  act := fun _ _ => (Except.ok (), ())
  text := fun _ _ => (Except.ok none, ())
  url := fun _ => "https://example.test/"

/-- A suite with no test cases, used to instantiate suite-level theorems. -/
def emptySuite : TestSuite := ⟨"suite-empty", []⟩

/-- C5: Selector resolution (buildSelector) is a total, pure function of the
Selector: id maps to a hash query, name to an attribute query, css to the
identity, xpath and linkText to prefixed queries, className to a dot query,
tagName to the raw value, any unknown type to the raw value, and an absent
selector to the empty string; no input raises an error. -/
theorem selector_resolver_spec (v raw : String) :
    buildSelector (some ⟨SelectorType.id, v⟩) = "#" ++ v
  ∧ buildSelector (some ⟨SelectorType.name, v⟩) = "[name=\"" ++ v ++ "\"]"
  ∧ buildSelector (some ⟨SelectorType.css, v⟩) = v
  ∧ buildSelector (some ⟨SelectorType.xpath, v⟩) = "xpath=" ++ v
  ∧ buildSelector (some ⟨SelectorType.linkText, v⟩) = "text=" ++ v
  ∧ buildSelector (some ⟨SelectorType.className, v⟩) = "." ++ v
  ∧ buildSelector (some ⟨SelectorType.tagName, v⟩) = v
  ∧ buildSelector (some ⟨SelectorType.other raw, v⟩) = v
  ∧ buildSelector none = "" :=
  ⟨rfl, rfl, rfl, rfl, rfl, rfl, rfl, rfl, rfl⟩

/-- C1: the completed suite status is derived exactly as: FAILED if
failedTests is positive; else PASSED if passedTests equals totalTests; else
BLOCKED if blockedTests is positive; else FAILED as fallback — and PASSED
implies passedTests equals totalTests with failedTests zero; the status field
of every completed TestSuiteRun is this function of its own counters. -/
theorem suite_status_derivation {W : Type} (execS : StepExec W) (execA : AssertExec W)
    (w : W) (reg0 : Registry) (suite : TestSuite) (f p b t : Nat) :
    (0 < f → determineTestSuiteStatus f p b t = TestStatus.FAILED)
  ∧ (f = 0 → p = t → determineTestSuiteStatus f p b t = TestStatus.PASSED)
  ∧ (f = 0 → p ≠ t → 0 < b → determineTestSuiteStatus f p b t = TestStatus.BLOCKED)
  ∧ (f = 0 → p ≠ t → b = 0 → determineTestSuiteStatus f p b t = TestStatus.FAILED)
  ∧ (determineTestSuiteStatus f p b t = TestStatus.PASSED → p = t ∧ f = 0)
  ∧ (runTestSuite execS execA w reg0 suite).run.status
      = determineTestSuiteStatus (runTestSuite execS execA w reg0 suite).run.failedTests
          (runTestSuite execS execA w reg0 suite).run.passedTests
          (runTestSuite execS execA w reg0 suite).run.blockedTests
          (runTestSuite execS execA w reg0 suite).run.totalTests := by
  refine ⟨?_, ?_, ?_, ?_, ?_, rfl⟩
  · intro h
    simp [determineTestSuiteStatus, h]
  · intro h1 h2
    simp [determineTestSuiteStatus, h1, h2]
  · intro h1 h2 h3
    simp [determineTestSuiteStatus, h1, h2, h3]
  · intro h1 h2 h3
    simp [determineTestSuiteStatus, h1, h2, h3]
  · intro h
    unfold determineTestSuiteStatus at h
    split_ifs at h with h1 h2 h3
    · exact ⟨h2, by omega⟩

/-- C1 witness: the derivation evaluated at concrete counters, via the claim
theorem with its hypotheses discharged. -/
theorem suite_status_derivation_w :
    determineTestSuiteStatus 1 2 0 3 = TestStatus.FAILED
  ∧ determineTestSuiteStatus 0 3 0 3 = TestStatus.PASSED
  ∧ determineTestSuiteStatus 0 2 1 3 = TestStatus.BLOCKED := by
  have h1 := suite_status_derivation noopStepExec noopAssertExec () [] emptySuite 1 2 0 3
  have h2 := suite_status_derivation noopStepExec noopAssertExec () [] emptySuite 0 3 0 3
  have h3 := suite_status_derivation noopStepExec noopAssertExec () [] emptySuite 0 2 1 3
  exact ⟨h1.1 (by decide), h2.2.1 rfl rfl, h3.2.2.1 rfl (by decide) (by decide)⟩

/-- Characterisation of one retryAux run: at least one and at most fuel + 1
attempts are executed, the delays are linear in the absolute retry count, an
error result means the fuel was exhausted and carries the last attempt's
error, and a success result comes from the final attempt executed. -/
theorem retryAux_spec {α : Type} (op : Nat → Except String α) :
    ∀ (r attempt : Nat),
      1 ≤ (retryAux op attempt r).attempts
    ∧ (retryAux op attempt r).attempts ≤ r + 1
    ∧ (retryAux op attempt r).delays
        = (List.range ((retryAux op attempt r).attempts - 1)).map
            (fun i => RECOVERY_DELAY * (attempt + i + 1))
    ∧ (∀ e, (retryAux op attempt r).res = Except.error e →
          (retryAux op attempt r).attempts = r + 1 ∧ op (attempt + r) = Except.error e)
    ∧ (∀ a, (retryAux op attempt r).res = Except.ok a →
          op (attempt + ((retryAux op attempt r).attempts - 1)) = Except.ok a) := by
  intro r
  induction r with
  | zero =>
    intro attempt
    cases h : op attempt with
    | ok a => refine ⟨?_, ?_, ?_, ?_, ?_⟩ <;> simp [retryAux, h]
    | error e => refine ⟨?_, ?_, ?_, ?_, ?_⟩ <;> simp [retryAux, h]
  | succ r ih =>
    intro attempt
    cases h : op attempt with
    | ok a => refine ⟨?_, ?_, ?_, ?_, ?_⟩ <;> simp [retryAux, h]
    | error e =>
      have hi := ih (attempt + 1)
      obtain ⟨hi1, hi2, hi3, hi4, hi5⟩ := hi
      have hres : (retryAux op attempt (r + 1)).res = (retryAux op (attempt + 1) r).res := by
        simp [retryAux, h]
      have hatt : (retryAux op attempt (r + 1)).attempts
          = (retryAux op (attempt + 1) r).attempts + 1 := by
        simp [retryAux, h]
      have hdel : (retryAux op attempt (r + 1)).delays
          = (RECOVERY_DELAY * (attempt + 1)) :: (retryAux op (attempt + 1) r).delays := by
        simp [retryAux, h]
      refine ⟨?_, ?_, ?_, ?_, ?_⟩
      · rw [hatt]; omega
      · rw [hatt]; omega
      · obtain ⟨m, hm⟩ : ∃ m, (retryAux op (attempt + 1) r).attempts = m + 1 :=
          ⟨(retryAux op (attempt + 1) r).attempts - 1, by omega⟩
        rw [hdel, hatt, hm, Nat.add_sub_cancel, List.range_succ_eq_map, List.map_cons,
          List.map_map]
        rw [hm, Nat.add_sub_cancel] at hi3
        rw [hi3]
        simp only [Nat.add_zero, List.cons.injEq, true_and]
        apply List.map_congr_left
        intro a _
        simp only [Function.comp_apply, Nat.succ_eq_add_one]
        ring
      · intro e2 he2
        rw [hres] at he2
        have hh := hi4 e2 he2
        refine ⟨by rw [hatt]; omega, ?_⟩
        have harith : attempt + (r + 1) = attempt + 1 + r := by omega
        rw [harith]
        exact hh.2
      · intro a ha
        rw [hres] at ha
        have hh := hi5 a ha
        have harith : attempt + ((retryAux op attempt (r + 1)).attempts - 1)
            = attempt + 1 + ((retryAux op (attempt + 1) r).attempts - 1) := by
          rw [hatt]; omega
        rw [harith]
        exact hh

/-- C7 counterexample: an operation that fails on every attempt is executed
four times before the failure is rethrown, so the controller does not stop at
three attempts in total as claimed. -/
theorem retry_attempts_counterexample :
    (retryOperation (fun _ => (Except.error "boom" : Except String Unit))).attempts = 4
  ∧ ¬ (retryOperation (fun _ => (Except.error "boom" : Except String Unit))).attempts ≤ 3 :=
  ⟨rfl, by decide⟩

/-- C7 amended: the Recovery-Retry Controller executes a wrapped fallible
operation at most MAX_RETRY_ATTEMPTS + 1 = 4 attempts in total (one initial
attempt plus up to 3 retries), the delay before the n-th retry is
RECOVERY_DELAY multiplied by n (linear backoff), and after exhausting the
limit the last attempt's failure propagates to the caller. -/
theorem retry_controller_amended {α : Type} (op : Nat → Except String α) :
    (retryOperation op).attempts ≤ MAX_RETRY_ATTEMPTS + 1
  ∧ (retryOperation op).delays
      = (List.range ((retryOperation op).attempts - 1)).map
          (fun i => RECOVERY_DELAY * (i + 1))
  ∧ (∀ e, (retryOperation op).res = Except.error e →
        (retryOperation op).attempts = MAX_RETRY_ATTEMPTS + 1
      ∧ op MAX_RETRY_ATTEMPTS = Except.error e)
  ∧ (∀ a, (retryOperation op).res = Except.ok a →
        op ((retryOperation op).attempts - 1) = Except.ok a) := by
  have h := retryAux_spec op MAX_RETRY_ATTEMPTS 0
  obtain ⟨h1, h2, h3, h4, h5⟩ := h
  refine ⟨h2, ?_, ?_, ?_⟩
  · rw [show retryOperation op = retryAux op 0 MAX_RETRY_ATTEMPTS from rfl, h3]
    congr 1
    funext i
    congr 1
    omega
  · intro e he
    have := h4 e he
    exact ⟨this.1, by simpa using this.2⟩
  · intro a ha
    have := h5 a ha
    simpa using this

/-- The always-failing operation used to exercise the retry controller. -/
def alwaysFailOp : Nat → Except String Unit := fun _ => Except.error "boom"

/-- C7 witness: the amended bound evaluated on the always-failing operation,
with the error hypothesis discharged by computation. -/
theorem retry_controller_amended_w :
    (retryOperation alwaysFailOp).attempts ≤ MAX_RETRY_ATTEMPTS + 1
  ∧ (retryOperation alwaysFailOp).attempts = MAX_RETRY_ATTEMPTS + 1
  ∧ alwaysFailOp MAX_RETRY_ATTEMPTS = Except.error "boom"
  ∧ (retryOperation alwaysFailOp).delays = [1000, 2000, 3000] := by
  have h := retry_controller_amended alwaysFailOp
  have h2 := h.2.2.1 "boom" rfl
  exact ⟨h.1, h2.1, h2.2, rfl⟩

/-- A 1000-character attribute value. -/
def longAttrValue : String := String.mk (List.replicate 1000 'a')

set_option maxRecDepth 8000 in
/-- C8 counterexample: an attribute whose value has length exactly 1000 — a
value that does not exceed 1000 characters — is dropped by the discovery
attribute filter, contradicting the claim that such attributes are kept. -/
theorem attribute_filter_counterexample :
    longAttrValue.length = 1000
  ∧ extractAttributes [("data-content", longAttrValue)] = [] := by
  have hlen : longAttrValue.length = 1000 := by
    simp [longAttrValue, String.length]
  refine ⟨hlen, ?_⟩
  simp [extractAttributes, validateAttributes, hlen]

/-- C8 amended: the attributes map returned by discovery contains exactly the
element's attributes whose string values are strictly shorter than 1000
characters — every attribute with a value of length 1000 or more is dropped,
and every attribute with a strictly shorter value is preserved with its name
and value unchanged. -/
theorem attribute_filter_amended (attrs : List (String × String)) :
    validateAttributes attrs = attrs.filter (fun kv => kv.2.length < 1000)
  ∧ (∀ k v, (k, v) ∈ extractAttributes attrs ↔ ((k, v) ∈ attrs ∧ v.length < 1000)) := by
  have h : validateAttributes attrs = attrs.filter (fun kv => kv.2.length < 1000) := by
    induction attrs with
    | nil => rfl
    | cons kv rest ih =>
      obtain ⟨k, v⟩ := kv
      by_cases hv : v.length < 1000
      · simp [validateAttributes, List.filter_cons, hv, ih]
      · simp [validateAttributes, List.filter_cons, hv, ih]
  refine ⟨h, ?_⟩
  intro k v
  rw [extractAttributes, h]
  simp [List.mem_filter]

/-- Unfolding of the step loop when the head step succeeds. -/
theorem runStepsAux_cons_ok {W : Type} (execS : StepExec W) (w : W) (s : Step)
    (rest : List Step) (u : Unit) (hr : (execS w s).res = Except.ok u) :
    runStepsAux execS w (s :: rest)
      = ⟨⟨s.id, true, none⟩ :: (runStepsAux execS (execS w s).world rest).logs,
         (execS w s).calls ++ (runStepsAux execS (execS w s).world rest).calls,
         (runStepsAux execS (execS w s).world rest).err,
         (runStepsAux execS (execS w s).world rest).world⟩ := by
  simp [runStepsAux, hr]

/-- Unfolding of the step loop when the head step fails. -/
theorem runStepsAux_cons_err {W : Type} (execS : StepExec W) (w : W) (s : Step)
    (rest : List Step) (e : String) (hr : (execS w s).res = Except.error e) :
    runStepsAux execS w (s :: rest)
      = ⟨[⟨s.id, false, some e⟩], (execS w s).calls ++ [DriverCall.screenshot], some e,
         (execS w s).world⟩ := by
  simp [runStepsAux, hr]

/-- If the step loop ends without error, every step succeeded and was logged
as a success entry in list order. -/
theorem runStepsAux_ok {W : Type} (execS : StepExec W) :
    ∀ (steps : List Step) (w : W),
      (runStepsAux execS w steps).err = none →
      (runStepsAux execS w steps).logs = steps.map (fun s => ⟨s.id, true, none⟩) := by
  intro steps
  induction steps with
  | nil => intro w _; rfl
  | cons s rest ih =>
    intro w herr
    cases hr : (execS w s).res with
    | ok u =>
      rw [runStepsAux_cons_ok execS w s rest u hr] at herr ⊢
      simp only [List.map_cons, List.cons.injEq, true_and]
      exact ih (execS w s).world herr
    | error e =>
      rw [runStepsAux_cons_err execS w s rest e hr] at herr
      cases herr

/-- If the step loop aborted with an error, the log is the success entries of
a strict prefix of the steps followed by a single failure entry naming the
first failing step and carrying the error. -/
theorem runStepsAux_err {W : Type} (execS : StepExec W) :
    ∀ (steps : List Step) (w : W) (e : String),
      (runStepsAux execS w steps).err = some e →
      ∃ k, ∃ hk : k < steps.length,
        (runStepsAux execS w steps).logs
          = ((steps.take k).map (fun s => (⟨s.id, true, none⟩ : StepLog)))
              ++ [⟨(steps.get ⟨k, hk⟩).id, false, some e⟩] := by
  intro steps
  induction steps with
  | nil => intro w e herr; cases herr
  | cons s rest ih =>
    intro w e herr
    cases hr : (execS w s).res with
    | error e0 =>
      rw [runStepsAux_cons_err execS w s rest e0 hr] at herr ⊢
      have he : e0 = e := by cases herr; rfl
      subst he
      exact ⟨0, by simp, by simp⟩
    | ok u =>
      rw [runStepsAux_cons_ok execS w s rest u hr] at herr ⊢
      obtain ⟨k, hk, hlogs⟩ := ih (execS w s).world e herr
      refine ⟨k + 1, by simpa using Nat.succ_lt_succ hk, ?_⟩
      simp only [List.take_succ_cons, List.map_cons, List.cons_append, List.cons.injEq,
        List.get_cons_succ, true_and]
      exact hlogs

/-- Unfolding of the assertion loop when the head assertion passes. -/
theorem runAssertionsAux_cons_ok {W : Type} (execA : AssertExec W) (w : W) (a : Assertion)
    (rest : List Assertion) (u : Unit) (hr : (execA w a).res = Except.ok u) :
    runAssertionsAux execA w (a :: rest)
      = ⟨⟨a.id, true, none⟩ :: (runAssertionsAux execA (execA w a).world rest).logs,
         (execA w a).calls ++ (runAssertionsAux execA (execA w a).world rest).calls,
         (runAssertionsAux execA (execA w a).world rest).anyFailed,
         (runAssertionsAux execA (execA w a).world rest).world⟩ := by
  simp [runAssertionsAux, hr]

/-- Unfolding of the assertion loop when the head assertion fails: the failure
is recorded and the loop continues. -/
theorem runAssertionsAux_cons_err {W : Type} (execA : AssertExec W) (w : W) (a : Assertion)
    (rest : List Assertion) (e : String) (hr : (execA w a).res = Except.error e) :
    runAssertionsAux execA w (a :: rest)
      = ⟨⟨a.id, false, some e⟩ :: (runAssertionsAux execA (execA w a).world rest).logs,
         (execA w a).calls ++ (runAssertionsAux execA (execA w a).world rest).calls,
         true,
         (runAssertionsAux execA (execA w a).world rest).world⟩ := by
  simp [runAssertionsAux, hr]

/-- Every assertion is evaluated: the assertion log records exactly the
assertion ids in declaration order, whatever the individual outcomes. -/
theorem runAssertionsAux_ids {W : Type} (execA : AssertExec W) :
    ∀ (al : List Assertion) (w : W),
      (runAssertionsAux execA w al).logs.map (fun l => l.assertionId)
        = al.map (fun a => a.id) := by
  intro al
  induction al with
  | nil => intro w; rfl
  | cons a rest ih =>
    intro w
    cases hr : (execA w a).res with
    | ok u =>
      rw [runAssertionsAux_cons_ok execA w a rest u hr]
      simp only [List.map_cons, List.cons.injEq, true_and]
      exact ih (execA w a).world
    | error e =>
      rw [runAssertionsAux_cons_err execA w a rest e hr]
      simp only [List.map_cons, List.cons.injEq, true_and]
      exact ih (execA w a).world

/-- The assertionsFailed flag is exactly the presence of a failed entry in the
assertion log. -/
theorem runAssertionsAux_anyFailed {W : Type} (execA : AssertExec W) :
    ∀ (al : List Assertion) (w : W),
      (runAssertionsAux execA w al).anyFailed
        = (runAssertionsAux execA w al).logs.any (fun l => !l.success) := by
  intro al
  induction al with
  | nil => intro w; rfl
  | cons a rest ih =>
    intro w
    cases hr : (execA w a).res with
    | ok u =>
      rw [runAssertionsAux_cons_ok execA w a rest u hr]
      simpa using ih (execA w a).world
    | error e =>
      rw [runAssertionsAux_cons_err execA w a rest e hr]
      simp

/-- Unfolding of the case runner when the step loop aborted. -/
theorem runTestCase_err {W : Type} (execS : StepExec W) (execA : AssertExec W) (w : W)
    (tc : TestCase) (e : String) (h : (runStepsAux execS w tc.steps).err = some e) :
    runTestCase execS execA w tc
      = ⟨⟨tc.id, TestStatus.FAILED, some e, true, (runStepsAux execS w tc.steps).logs, [], none⟩,
         DriverCall.openPage :: (runStepsAux execS w tc.steps).calls,
         (runStepsAux execS w tc.steps).world⟩ := by
  simp [runTestCase, h]

/-- Unfolding of the case runner when all steps succeeded. -/
theorem runTestCase_ok {W : Type} (execS : StepExec W) (execA : AssertExec W) (w : W)
    (tc : TestCase) (h : (runStepsAux execS w tc.steps).err = none) :
    runTestCase execS execA w tc
      = ⟨⟨tc.id,
          if (runAssertionsAux execA (runStepsAux execS w tc.steps).world tc.assertions).anyFailed
          then TestStatus.FAILED else TestStatus.PASSED,
          none, false, (runStepsAux execS w tc.steps).logs,
          (runAssertionsAux execA (runStepsAux execS w tc.steps).world tc.assertions).logs, none⟩,
         DriverCall.openPage :: ((runStepsAux execS w tc.steps).calls
           ++ (runAssertionsAux execA (runStepsAux execS w tc.steps).world tc.assertions).calls
           ++ [DriverCall.closePage]),
         (runAssertionsAux execA (runStepsAux execS w tc.steps).world tc.assertions).world⟩ := by
  simp [runTestCase, h]

/-- C3: the Test Case Runner executes steps in list order short-circuiting on
the first failure — the failing step is logged with its error, a screenshot is
captured, the case ends FAILED and no assertion log entry exists — while if
all steps succeed every assertion is evaluated and logged in order, and the
case is FAILED exactly when some assertion log entry failed, else PASSED. -/
theorem case_runner_spec {W : Type} (execS : StepExec W) (execA : AssertExec W)
    (w : W) (tc : TestCase) :
    ((runTestCase execS execA w tc).run.errorMessage = none →
        (runTestCase execS execA w tc).run.stepLogs
          = tc.steps.map (fun s => ⟨s.id, true, none⟩)
      ∧ (runTestCase execS execA w tc).run.assertLogs.map (fun l => l.assertionId)
          = tc.assertions.map (fun a => a.id)
      ∧ (runTestCase execS execA w tc).run.status
          = (if (runTestCase execS execA w tc).run.assertLogs.any (fun l => !l.success)
             then TestStatus.FAILED else TestStatus.PASSED))
  ∧ (∀ e, (runTestCase execS execA w tc).run.errorMessage = some e →
        (∃ k, ∃ hk : k < tc.steps.length,
          (runTestCase execS execA w tc).run.stepLogs
            = ((tc.steps.take k).map (fun s => (⟨s.id, true, none⟩ : StepLog)))
                ++ [⟨(tc.steps.get ⟨k, hk⟩).id, false, some e⟩])
      ∧ (runTestCase execS execA w tc).run.assertLogs = []
      ∧ (runTestCase execS execA w tc).run.status = TestStatus.FAILED
      ∧ (runTestCase execS execA w tc).run.screenshot = true) := by
  cases herr : (runStepsAux execS w tc.steps).err with
  | none =>
    rw [runTestCase_ok execS execA w tc herr]
    constructor
    · intro _
      refine ⟨runStepsAux_ok execS tc.steps w herr, ?_, ?_⟩
      · exact runAssertionsAux_ids execA tc.assertions (runStepsAux execS w tc.steps).world
      · simp only
        rw [runAssertionsAux_anyFailed execA tc.assertions (runStepsAux execS w tc.steps).world]
    · intro e he
      cases he
  | some e0 =>
    rw [runTestCase_err execS execA w tc e0 herr]
    constructor
    · intro hnone
      cases hnone
    · intro e he
      have he0 : e0 = e := by cases he; rfl
      subst he0
      obtain ⟨k, hk, hlogs⟩ := runStepsAux_err execS tc.steps w e0 herr
      exact ⟨⟨k, hk, hlogs⟩, rfl, rfl, rfl⟩

/-- A step whose oracle always fails. -/
def failingStepExec : StepExec Unit := fun _ s =>
  ⟨Except.error ("fail " ++ s.id), [], ()⟩

/-- A concrete two-step test case used to instantiate the case-runner theorem. -/
def twoStepCase : TestCase :=
  ⟨"tc-1",
   [⟨"s1", Action.wait, none, none, some 1, false, none, false⟩,
    ⟨"s2", Action.wait, none, none, some 1, false, none, false⟩],
   [⟨"a1", AssertionType.elementExists, none, none⟩],
   []⟩

/-- C3 witness: the failing branch of the case-runner theorem evaluated on a
concrete case whose first step fails. -/
theorem case_runner_spec_w :
    (∃ k, ∃ hk : k < twoStepCase.steps.length,
        (runTestCase failingStepExec noopAssertExec () twoStepCase).run.stepLogs
          = ((twoStepCase.steps.take k).map (fun s => (⟨s.id, true, none⟩ : StepLog)))
              ++ [⟨(twoStepCase.steps.get ⟨k, hk⟩).id, false, some "fail s1"⟩])
  ∧ (runTestCase failingStepExec noopAssertExec () twoStepCase).run.assertLogs = []
  ∧ (runTestCase failingStepExec noopAssertExec () twoStepCase).run.status = TestStatus.FAILED
  ∧ (runTestCase failingStepExec noopAssertExec () twoStepCase).run.screenshot = true :=
  (case_runner_spec failingStepExec noopAssertExec () twoStepCase).2 "fail s1" rfl

/-- canRunTest succeeds exactly when every dependency id has a recorded run
with status PASSED. -/
theorem canRunTest_iff (reg : Registry) (deps : List String) :
    canRunTest reg deps = true ↔
      ∀ dep ∈ deps, lookupRun reg dep = some TestStatus.PASSED := by
  cases deps with
  | nil => simp [canRunTest]
  | cons d rest =>
    have hlen : ¬((d :: rest).length = 0) := by simp
    rw [canRunTest, if_neg hlen, List.all_eq_true]
    constructor
    · intro h dep hdep
      have hd := h dep hdep
      cases hl : lookupRun reg dep with
      | none => rw [hl] at hd; cases hd
      | some st =>
        rw [hl] at hd
        cases st <;> simp_all
    · intro h dep hdep
      rw [h dep hdep]

/-- C2: a TestCase is eligible iff every dependency maps to a previously
recorded PASSED run (empty dependsOn is always eligible); an ineligible case
is recorded with status BLOCKED, empty step and assertion logs and the fixed
diagnostic message, without issuing any driver call — no page opens, no step
or assertion runs, and the recorded status is never RUNNING. -/
theorem dependency_gate_spec {W : Type} (execS : StepExec W) (execA : AssertExec W)
    (w : W) (st : SuiteRunState) (tc : TestCase) :
    (canRunTest st.registry tc.dependsOn = true ↔
       ∀ dep ∈ tc.dependsOn, lookupRun st.registry dep = some TestStatus.PASSED)
  ∧ (tc.dependsOn = [] → canRunTest st.registry tc.dependsOn = true)
  ∧ (canRunTest st.registry tc.dependsOn = false →
       (processCase execS execA w st tc).state.testRuns = st.testRuns ++ [blockedTestRun tc]
     ∧ (processCase execS execA w st tc).state.registry
         = (tc.id, TestStatus.BLOCKED) :: st.registry
     ∧ (processCase execS execA w st tc).calls = []
     ∧ (processCase execS execA w st tc).world = w
     ∧ (blockedTestRun tc).status = TestStatus.BLOCKED
     ∧ (blockedTestRun tc).stepLogs = []
     ∧ (blockedTestRun tc).assertLogs = []
     ∧ (blockedTestRun tc).message = some "Test blocked due to failed dependencies"
     ∧ (blockedTestRun tc).status ≠ TestStatus.RUNNING) := by
  refine ⟨canRunTest_iff st.registry tc.dependsOn, ?_, ?_⟩
  · intro h
    rw [h]
    rfl
  · intro hc
    have hcb : ¬ (canRunTest st.registry tc.dependsOn = true) := by
      rw [hc]
      simp
    refine ⟨?_, ?_, ?_, ?_, rfl, rfl, rfl, rfl, by simp [blockedTestRun]⟩ <;>
      simp [processCase, hcb]

/-- A registry recording one FAILED dependency, and a case depending on it. -/
def failedDepState : SuiteRunState :=
  ⟨2, 0, 1, 0, 0, [("tc-a", TestStatus.FAILED)], []⟩

/-- A case that depends on the failed case of failedDepState. -/
def dependentCase : TestCase := ⟨"tc-b", [], [], ["tc-a"]⟩

/-- C2 witness: the gate theorem evaluated on a concrete registry holding a
FAILED dependency, with the ineligibility hypothesis discharged by
computation. -/
theorem dependency_gate_spec_w :
    (processCase noopStepExec noopAssertExec () failedDepState dependentCase).state.testRuns
      = failedDepState.testRuns ++ [blockedTestRun dependentCase]
  ∧ (processCase noopStepExec noopAssertExec () failedDepState dependentCase).calls = []
  ∧ (blockedTestRun dependentCase).status = TestStatus.BLOCKED
  ∧ (blockedTestRun dependentCase).message
      = some "Test blocked due to failed dependencies" := by
  have h := (dependency_gate_spec noopStepExec noopAssertExec () failedDepState
    dependentCase).2.2 (by decide)
  exact ⟨h.1, h.2.2.1, h.2.2.2.2.1, h.2.2.2.2.2.2.2.1⟩

/-- The four per-case counters summed, in the order the claim lists them. -/
def counterSum (st : SuiteRunState) : Nat :=
  st.passedTests + st.failedTests + st.blockedTests + st.skippedTests

/-- Every case run through the runner ends PASSED or FAILED. -/
theorem runTestCase_status {W : Type} (execS : StepExec W) (execA : AssertExec W)
    (w : W) (tc : TestCase) :
    (runTestCase execS execA w tc).run.status = TestStatus.PASSED
  ∨ (runTestCase execS execA w tc).run.status = TestStatus.FAILED := by
  cases herr : (runStepsAux execS w tc.steps).err with
  | some e =>
    right
    rw [runTestCase_err execS execA w tc e herr]
  | none =>
    rw [runTestCase_ok execS execA w tc herr]
    by_cases hf :
        (runAssertionsAux execA (runStepsAux execS w tc.steps).world tc.assertions).anyFailed
    · right
      simp [hf]
    · left
      simp [hf]

/-- Processing one case adds exactly one to exactly one counter and leaves
totalTests unchanged. -/
theorem processCase_counterSum {W : Type} (execS : StepExec W) (execA : AssertExec W)
    (w : W) (st : SuiteRunState) (tc : TestCase) :
    counterSum (processCase execS execA w st tc).state = counterSum st + 1
  ∧ (processCase execS execA w st tc).state.totalTests = st.totalTests := by
  by_cases hc : canRunTest st.registry tc.dependsOn
  · rcases runTestCase_status execS execA w tc with hs | hs <;>
      constructor <;>
      simp [processCase, hc, updateSuiteRunStats, hs, counterSum] <;>
      omega
  · constructor
    all_goals simp [processCase, hc, updateSuiteRunStats, counterSum]
    all_goals omega

/-- The suite loop adds exactly the number of processed cases to the counter
sum and preserves totalTests. -/
theorem runSuiteCases_counterSum {W : Type} (execS : StepExec W) (execA : AssertExec W) :
    ∀ (tcs : List TestCase) (w : W) (st : SuiteRunState),
      counterSum (runSuiteCases execS execA w st tcs).state = counterSum st + tcs.length
    ∧ (runSuiteCases execS execA w st tcs).state.totalTests = st.totalTests := by
  intro tcs
  induction tcs with
  | nil => intro w st; exact ⟨rfl, rfl⟩
  | cons tc rest ih =>
    intro w st
    have hp := processCase_counterSum execS execA w st tc
    have hr := ih (processCase execS execA w st tc).world (processCase execS execA w st tc).state
    constructor
    · show counterSum (runSuiteCases execS execA _ _ rest).state = _
      rw [hr.1, hp.1]
      simp [List.length_cons]
      omega
    · show (runSuiteCases execS execA _ _ rest).state.totalTests = _
      rw [hr.2, hp.2]

/-- C4: totalTests equals the number of cases in the suite; after any prefix
of the run the counters sum to the number of cases processed so far, which
never exceeds totalTests; and once the run completes the four counters sum to
exactly totalTests — each case lands in exactly one counter. -/
theorem suite_counters_spec {W : Type} (execS : StepExec W) (execA : AssertExec W)
    (w : W) (reg0 : Registry) (suite : TestSuite) :
    (runTestSuite execS execA w reg0 suite).run.totalTests = suite.testCases.length
  ∧ (∀ k : Nat,
       counterSum (runSuiteCases execS execA w (initSuiteState reg0 suite)
           (suite.testCases.take k)).state
         = (suite.testCases.take k).length
     ∧ (suite.testCases.take k).length ≤ suite.testCases.length)
  ∧ (runTestSuite execS execA w reg0 suite).run.passedTests
      + (runTestSuite execS execA w reg0 suite).run.failedTests
      + (runTestSuite execS execA w reg0 suite).run.blockedTests
      + (runTestSuite execS execA w reg0 suite).run.skippedTests
      = (runTestSuite execS execA w reg0 suite).run.totalTests := by
  have hfull := runSuiteCases_counterSum execS execA suite.testCases w
    (initSuiteState reg0 suite)
  refine ⟨?_, ?_, ?_⟩
  · show (runSuiteCases execS execA w (initSuiteState reg0 suite)
        suite.testCases).state.totalTests = suite.testCases.length
    rw [hfull.2]
    rfl
  · intro k
    have h := runSuiteCases_counterSum execS execA (suite.testCases.take k) w
      (initSuiteState reg0 suite)
    refine ⟨?_, ?_⟩
    · rw [h.1]
      simp [counterSum, initSuiteState]
    · rw [List.length_take]
      omega
  · show counterSum (runSuiteCases execS execA w (initSuiteState reg0 suite)
        suite.testCases).state
      = (runSuiteCases execS execA w (initSuiteState reg0 suite)
          suite.testCases).state.totalTests
    rw [hfull.1, hfull.2]
    simp [counterSum, initSuiteState]

/-- A type or select step whose resolved value is falsy fails inside the
executor before any driver call, with the error message of the source
template. -/
theorem executeStep_missing_value {W : Type} (d : Driver W) (w : W) (step : Step)
    (ha : step.action = Action.type ∨ step.action = Action.select)
    (hv : truthyStr (stepResolvedValue step) = false) :
    executeStep d w step
      = ⟨Except.error
           ((if step.action = Action.type then "No value provided for type action in step "
             else "No value provided for select action in step ") ++ step.id), [], w⟩ := by
  have hval : stepResolvedValue step = none ∨ stepResolvedValue step = some "" := by
    cases hs : stepResolvedValue step with
    | none => left; rfl
    | some v =>
      right
      rw [hs] at hv
      simp [truthyStr] at hv
      rw [hv]
  rcases ha with ha | ha <;> rcases hval with hval | hval <;>
    simp [executeStep, ha, hval]

/-- If some step of the list always fails under the executor, the step loop
aborts with an error. -/
theorem runStepsAux_failing_mem {W : Type} (execS : StepExec W) (s : Step)
    (hf : ∀ w : W, ∃ e, (execS w s).res = Except.error e) :
    ∀ (steps : List Step) (w : W), s ∈ steps →
      ∃ e, (runStepsAux execS w steps).err = some e := by
  intro steps
  induction steps with
  | nil => intro w h; cases h
  | cons s0 rest ih =>
    intro w hmem
    cases hr : (execS w s0).res with
    | error e =>
      exact ⟨e, by rw [runStepsAux_cons_err execS w s0 rest e hr]⟩
    | ok u =>
      rcases List.mem_cons.mp hmem with heq | hmem2
      · subst heq
        obtain ⟨e, he⟩ := hf w
        rw [he] at hr
        cases hr
      · rw [runStepsAux_cons_ok execS w s0 rest u hr]
        exact ih (execS w s0).world hmem2

/-- C6: a type or select step whose resolved value (literal step.value, else
fixture lookup) is absent fails with a missing-value error naming the step,
issuing no driver call; consequently any case containing such a step ends
FAILED with a screenshot captured, under the executor of the full runner
variant. -/
theorem missing_value_step_spec {W : Type} (d : Driver W) (execA : AssertExec W)
    (w : W) (step : Step)
    (ha : step.action = Action.type ∨ step.action = Action.select)
    (hv : truthyStr (stepResolvedValue step) = false) :
    (executeStep d w step).res
      = Except.error
          ((if step.action = Action.type then "No value provided for type action in step "
            else "No value provided for select action in step ") ++ step.id)
  ∧ (executeStep d w step).calls = []
  ∧ (executeStep d w step).world = w
  ∧ (∀ (w2 : W) (tc : TestCase), step ∈ tc.steps →
       (runTestCase (fun wx sx => executeStep d wx sx) execA w2 tc).run.status
         = TestStatus.FAILED
     ∧ (runTestCase (fun wx sx => executeStep d wx sx) execA w2 tc).run.screenshot = true) := by
  have hstep := executeStep_missing_value d w step ha hv
  refine ⟨by rw [hstep], by rw [hstep], by rw [hstep], ?_⟩
  intro w2 tc hmem
  have hf : ∀ wx : W, ∃ e, ((fun wy sy => executeStep d wy sy) wx step).res
      = Except.error e := by
    intro wx
    refine ⟨(if step.action = Action.type then "No value provided for type action in step "
             else "No value provided for select action in step ") ++ step.id, ?_⟩
    show (executeStep d wx step).res = _
    rw [executeStep_missing_value d wx step ha hv]
  obtain ⟨e, he⟩ := runStepsAux_failing_mem (fun wy sy => executeStep d wy sy) step hf
    tc.steps w2 hmem
  rw [runTestCase_err (fun wy sy => executeStep d wy sy) execA w2 tc e he]
  exact ⟨rfl, rfl⟩

/-- A type step with no literal value and no fixture data. -/
def missingValueStep : Step :=
  ⟨"s-type", Action.type, some ⟨SelectorType.id, "field"⟩, none, none, false, none, false⟩

/-- A case containing only the missing-value type step. -/
def missingValueCase : TestCase := ⟨"tc-missing", [missingValueStep], [], []⟩

/-- C6 witness: the missing-value theorem evaluated on a concrete type step
with no value and no fixture, hypotheses discharged by computation. -/
theorem missing_value_step_spec_w :
    (executeStep noopDriver () missingValueStep).res
      = Except.error "No value provided for type action in step s-type"
  ∧ (executeStep noopDriver () missingValueStep).calls = []
  ∧ (runTestCase (fun wx sx => executeStep noopDriver wx sx) noopAssertExec ()
        missingValueCase).run.status = TestStatus.FAILED
  ∧ (runTestCase (fun wx sx => executeStep noopDriver wx sx) noopAssertExec ()
        missingValueCase).run.screenshot = true := by
  have h := missing_value_step_spec noopDriver noopAssertExec () missingValueStep
    (Or.inl rfl) rfl
  have h4 := h.2.2.2 () missingValueCase (by simp [missingValueCase])
  exact ⟨h.1, h.2.1, h4.1, h4.2⟩

/-- C10: in the minimal runner variant, an assertion with no selector performs
no check and resolves successfully whatever its type and expected value, so
the case runner records it as passed; and a urlEquals assertion can never fail
in that variant since the guarded switch has no case for it. -/
theorem selectorless_assertion_spec {W : Type} (d : Driver W) (w : W) (a : Assertion) :
    (a.selector = none → executeAssertionMinimal d w a = ⟨Except.ok (), [], w⟩)
  ∧ (a.assertionType = AssertionType.urlEquals →
       (executeAssertionMinimal d w a).res = Except.ok ())
  ∧ (a.selector = none → ∀ (pre post : List Assertion) (w2 : W),
       ((runAssertionsAux (fun wx ax => executeAssertionMinimal d wx ax) w2
           (pre ++ a :: post)).logs).get? pre.length
         = some ⟨a.id, true, none⟩) := by
  refine ⟨?_, ?_, ?_⟩
  · intro h
    simp [executeAssertionMinimal, h]
  · intro h
    cases hs : a.selector with
    | none => simp [executeAssertionMinimal, hs]
    | some s => simp [executeAssertionMinimal, hs, h]
  · intro h pre
    induction pre with
    | nil =>
      intro post w2
      rw [List.nil_append,
        runAssertionsAux_cons_ok (fun wx ax => executeAssertionMinimal d wx ax) w2 a post ()
          (by show (executeAssertionMinimal d w2 a).res = Except.ok ()
              simp [executeAssertionMinimal, h])]
      rfl
    | cons p rest ih =>
      intro post w2
      cases hr : ((fun wx ax => executeAssertionMinimal d wx ax) w2 p).res with
      | ok u =>
        rw [List.cons_append,
          runAssertionsAux_cons_ok (fun wx ax => executeAssertionMinimal d wx ax) w2 p
            (rest ++ a :: post) u hr]
        simpa using ih post (executeAssertionMinimal d w2 p).world
      | error e =>
        rw [List.cons_append,
          runAssertionsAux_cons_err (fun wx ax => executeAssertionMinimal d wx ax) w2 p
            (rest ++ a :: post) e hr]
        simpa using ih post (executeAssertionMinimal d w2 p).world

/-- A urlEquals assertion with no selector. -/
def urlAssertion : Assertion :=
  ⟨"a-url", AssertionType.urlEquals, none, some "https://expected.test/"⟩

/-- C10 witness: the selector-less assertion theorem evaluated on a concrete
urlEquals assertion, hypotheses discharged by computation. -/
theorem selectorless_assertion_spec_w :
    executeAssertionMinimal noopDriver () urlAssertion = ⟨Except.ok (), [], ()⟩
  ∧ (executeAssertionMinimal noopDriver () urlAssertion).res = Except.ok ()
  ∧ ((runAssertionsAux (fun wx ax => executeAssertionMinimal noopDriver wx ax) ()
        ([] ++ urlAssertion :: [])).logs).get? 0
      = some ⟨urlAssertion.id, true, none⟩ := by
  have h := selectorless_assertion_spec noopDriver () urlAssertion
  exact ⟨h.1 rfl, h.2.1 rfl, h.2.2 rfl [] [] ()⟩

/-- A string of positive length is not the empty string. -/
theorem ne_empty_of_length_pos {s : String} (h : 0 < s.length) : s ≠ "" := by
  intro hc
  rw [hc] at h
  simp at h

/-- A string of length zero is the empty string. -/
theorem eq_empty_of_length_zero {s : String} (h : s.length = 0) : s = "" := by
  cases s with
  | mk data =>
    simp [String.length] at h
    simp [h]

/-- A positional-path segment is never the empty string. -/
theorem pathSeg_ne_empty (t : String) (n : Nat) :
    t ++ ":nth-of-type(" ++ toString n ++ ")" ≠ "" := by
  apply ne_empty_of_length_pos
  have h13 : (":nth-of-type(" : String).length = 13 := rfl
  have h1 : (")" : String).length = 1 := rfl
  rw [String.length_append, String.length_append, String.length_append, h13, h1]
  omega

/-- Unfolding of the segment list at a valid child index. -/
theorem pathSegsAux_cons (d : Dom) (i : Nat) (rest : List Nat) (c : Dom)
    (hg : d.children.get? i = some c) :
    pathSegsAux d (i :: rest)
      = (strToLower c.tag ++ ":nth-of-type(" ++ toString (nthOfTypeIdx d.children i) ++ ")")
          :: pathSegsAux c rest := by
  have hg2 : d.children[i]? = some c := by
    rw [← List.get?_eq_getElem?]
    exact hg
  simp [pathSegsAux, hg2]

/-- Every positional-path segment is a non-empty string. -/
theorem pathSegsAux_ne_empty (d : Dom) (pos : List Nat) :
    ∀ x ∈ pathSegsAux d pos, x ≠ "" := by
  induction pos generalizing d with
  | nil => intro x hx; cases hx
  | cons i rest ih =>
    intro x hx
    cases hg : d.children.get? i with
    | none =>
      rw [pathSegsAux, hg] at hx
      cases hx
    | some c =>
      rw [pathSegsAux_cons d i rest c hg] at hx
      rcases List.mem_cons.mp hx with heq | hmem
      · rw [heq]
        exact pathSeg_ne_empty _ _
      · exact ih c x hmem

/-- The while-loop fold over a non-empty segment list yields a non-empty
string. -/
theorem foldr_joinSeg_ne_empty (x : String) (xs : List String) (hx : x ≠ "") :
    (x :: xs).foldr joinSeg "" ≠ "" := by
  show joinSeg x (xs.foldr joinSeg "") ≠ ""
  unfold joinSeg
  intro hc
  apply hx
  have hlen := congrArg String.length hc
  rw [String.length_append] at hlen
  simp at hlen
  exact eq_empty_of_length_zero hlen.1

/-- The accumulator loop of generateUniqueSelector computes exactly the
segments joined by the separator. -/
theorem foldr_joinSeg_eq_joinWithSep :
    ∀ (l : List String), (∀ x ∈ l, x ≠ "") → l.foldr joinSeg "" = joinWithSep " > " l := by
  intro l
  induction l with
  | nil => intro _; rfl
  | cons x xs ih =>
    intro hne
    cases xs with
    | nil =>
      show joinSeg x "" = x
      simp [joinSeg]
    | cons y ys =>
      have hy : y ≠ "" := hne y (by simp)
      have htail := ih (fun z hz => hne z (List.mem_cons_of_mem x hz))
      have hne2 : (y :: ys).foldr joinSeg "" ≠ "" := foldr_joinSeg_ne_empty y ys hy
      show x ++ (if (y :: ys).foldr joinSeg "" = "" then ""
          else " > " ++ (y :: ys).foldr joinSeg "") = joinWithSep " > " (x :: y :: ys)
      rw [if_neg hne2, htail]
      show x ++ (" > " ++ joinWithSep " > " (y :: ys))
          = x ++ " > " ++ joinWithSep " > " (y :: ys)
      rw [String.append_assoc]

/-- C9 counterexample: when the main evaluation fails and the fallback
evaluation in the catch block fails as well (a dead execution context rejects
both), the generator propagates the error rather than returning the bare
lowercase tag name. -/
theorem unique_selector_counterexample :
    generateUniqueSelector (Dom.node "DIV" "" "" "" []) [] true true
      = Except.error "Execution context was destroyed"
  ∧ generateUniqueSelector (Dom.node "DIV" "" "" "" []) [] true true
      ≠ Except.ok "div" := by
  refine ⟨rfl, ?_⟩
  intro hc
  cases hc

/-- C9 amended: the generator tries the rules in fixed order — id, then
tag+name, then tag+class list, then the positional path of nth-of-type
segments joined by the separator and rooted at body — an earlier rule winning
whenever its attribute is present; on a failed main evaluation it answers a
fallback evaluation returning the bare lowercase tag name, and if that
fallback evaluation fails as well the error propagates to the caller. -/
theorem unique_selector_amended (root : Dom) (pos : List Nat) (el : Dom)
    (hres : root.resolve pos = some el) :
    (el.idAttr ≠ "" →
       generateUniqueSelector root pos false false = Except.ok ("#" ++ el.idAttr))
  ∧ (el.idAttr = "" → el.nameAttr ≠ "" →
       generateUniqueSelector root pos false false
         = Except.ok (strToLower el.tag ++ "[name=\"" ++ el.nameAttr ++ "\"]"))
  ∧ (el.idAttr = "" → el.nameAttr = "" → el.className ≠ "" →
       0 < (splitClassList (strTrim el.className)).length →
       generateUniqueSelector root pos false false
         = Except.ok (strToLower el.tag ++ "."
             ++ String.intercalate "." (splitClassList (strTrim el.className))))
  ∧ (el.idAttr = "" → el.nameAttr = "" → el.className = "" → pos ≠ [] →
       generateUniqueSelector root pos false false
         = Except.ok ("body > " ++ joinWithSep " > " (pathSegsAux root pos)))
  ∧ (generateUniqueSelector root pos true false = Except.ok (strToLower el.tag))
  ∧ (generateUniqueSelector root pos true true
       = Except.error "Execution context was destroyed") := by
  have hgen : generateUniqueSelector root pos false false
      = Except.ok (uniqueSelectorEval root pos el) := by
    simp [generateUniqueSelector, hres]
  refine ⟨?_, ?_, ?_, ?_, ?_, ?_⟩
  · intro h1
    rw [hgen]
    simp [uniqueSelectorEval, h1]
  · intro h1 h2
    rw [hgen]
    simp [uniqueSelectorEval, h1, h2]
  · intro h1 h2 h3 h4
    rw [hgen]
    simp [uniqueSelectorEval, h1, h2, h3, h4]
  · intro h1 h2 h3 hpos
    have hpath : positionalPath root pos ≠ "" := by
      cases pos with
      | nil => exact absurd rfl hpos
      | cons i rest =>
        rw [Dom.resolve] at hres
        cases hg : root.children.get? i with
        | none => rw [hg] at hres; cases hres
        | some c =>
          rw [positionalPath, pathSegsAux_cons root i rest c hg]
          exact foldr_joinSeg_ne_empty _ _ (pathSeg_ne_empty _ _)
    have hjoin : positionalPath root pos = joinWithSep " > " (pathSegsAux root pos) :=
      foldr_joinSeg_eq_joinWithSep (pathSegsAux root pos) (pathSegsAux_ne_empty root pos)
    have hpath2 : joinWithSep " > " (pathSegsAux root pos) ≠ "" := hjoin ▸ hpath
    rw [hgen]
    simp [uniqueSelectorEval, h1, h2, h3, hjoin, hpath2]
  · simp [generateUniqueSelector, hres]
  · simp [generateUniqueSelector, hres]

/-- The body root used to instantiate the unique-selector theorem. -/
def witnessBody : Dom :=
  Dom.node "BODY" "" "" "" [Dom.node "DIV" "main" "" "" []]

/-- The single child element of witnessBody, carrying an id. -/
def witnessDiv : Dom := Dom.node "DIV" "main" "" "" []

/-- C9 witness: the amended rules evaluated on a concrete element carrying an
id, with the resolution and attribute hypotheses discharged by computation. -/
theorem unique_selector_amended_w :
    generateUniqueSelector witnessBody [0] false false = Except.ok "#main"
  ∧ generateUniqueSelector witnessBody [0] true false = Except.ok "div" := by
  have h := unique_selector_amended witnessBody [0] witnessDiv rfl
  refine ⟨h.1 (by decide), ?_⟩
  rw [h.2.2.2.2.1]
  rfl

end WebTest
